import Mathlib

/-!
Verification development for the GO enrichment engine of `GO.py`
(cgat-apps).  The Python functions are shallowly embedded over `ℤ` and
`ℚ`: Python integers become `ℤ` (or `ℕ` for lengths), Python floats
become `ℚ`, assertion failures become `Except.error`, and the one
transcendental computation (`math.exp` over log-gamma terms inside
`hypergeometric_gamma`) is abstracted as an explicit function parameter
`ev`, since none of the verified properties depend on its value.
-/

namespace CgatGO

/-- `MIN_FLOAT = sys.float_info.min`, the smallest positive normal
double, `2 ^ (-1022)` (GO.py line 164).  The denominator is the decimal
expansion of `2 ^ 1022`, written as a literal so that concrete runs of
the embedding reduce without large-exponent evaluation. -/
def MIN_FLOAT : ℚ := mkRat 1 44942328371557897693232629769725618340449424473557664318357520289433168951375240783177119330601884005280028469967848339414697442203604155623211857659868531094441973356216371319075554900311523529863270738021251442209537670585615720368478277635206809290837627671146574559986811484619929076208839082406056034304

/-- The relative-error cutoff `GSL_DBL_EPSILON = 1e-10` used by the tail
summation loops (GO.py lines 193, 234). -/
def GSL_DBL_EPSILON : ℚ := mkRat 1 10000000000

/-- The silent parameter clamp at the top of `hypergeometric_gamma`
(GO.py lines 177-178): `if t > n1 + n2: t = n1 + n2`. -/
def clampT (n1 n2 t : ℤ) : ℤ := if t > n1 + n2 then n1 + n2 else t

/-- Python's binary `max(a, b)`: returns `a` on ties, like the source's
`max(math.exp(...), MIN_FLOAT)`. -/
def pymax (a b : ℚ) : ℚ := if b ≤ a then a else b

/-- `hypergeometric_gamma(k, n1, n2, t)` (GO.py lines 176-189): the
point mass `P(X = k)`.  After clamping `t`, out-of-support `k` returns
the literal integer `0`; otherwise the source returns
`max(math.exp(c1 + c2 - c3), MIN_FLOAT)` where the `c`s are log-gamma
binomial terms.  That transcendental value is abstracted as
`ev k n1 n2 t` (evaluated at the clamped `t`, as in the source). -/
def hypergeometric_gamma (ev : ℤ → ℤ → ℤ → ℤ → ℚ) (k n1 n2 t : ℤ) : ℚ :=
  if k > n1 ∨ k > clampT n1 n2 t then 0
  else if clampT n1 n2 t > n2 ∧ k + n2 < clampT n1 n2 t then 0
  else pymax (ev k n1 n2 (clampT n1 n2 t)) MIN_FLOAT

/-- One summation loop of the tail routines, walking `i` downward:
`while i > lo and relerr > GSL_DBL_EPSILON and P < 1.0` with body
`tmp = g(i); P += tmp; relerr = tmp / P; i -= 1`.  The fuel argument is
always instantiated with the exact maximal iteration count of the
corresponding `while` loop, so the fuel never runs out before the loop
condition turns false. -/
def tailLoopDown (g : ℤ → ℚ) (lo : ℤ) : ℕ → ℤ → ℚ → ℚ → ℚ
  | 0, _, _, acc => acc
  | fuel + 1, i, relerr, acc =>
    if lo < i ∧ GSL_DBL_EPSILON < relerr ∧ acc < 1 then
      let tmp := g i
      tailLoopDown g lo fuel (i - 1) (tmp / (acc + tmp)) (acc + tmp)
    else acc

/-- One summation loop of the tail routines, walking `i` upward:
`while i <= hi and relerr > GSL_DBL_EPSILON and P < 1.0` with the same
body as `tailLoopDown`. -/
def tailLoopUp (g : ℤ → ℚ) (hi : ℤ) : ℕ → ℤ → ℚ → ℚ → ℚ
  | 0, _, _, acc => acc
  | fuel + 1, i, relerr, acc =>
    if i ≤ hi ∧ GSL_DBL_EPSILON < relerr ∧ acc < 1 then
      let tmp := g i
      tailLoopUp g hi fuel (i + 1) (tmp / (acc + tmp)) (acc + tmp)
    else acc

/-- `hypergeometric_P(k, n0, n1, t)` (GO.py lines 191-230): lower tail
`P(X ≤ k)`.  The three `assert` statements become `Except.error` with
the source's messages; then the edge branches, then the
bidirectional-from-mode summation. -/
def hypergeometric_P (ev : ℤ → ℤ → ℤ → ℤ → ℚ) (k n0 n1 t : ℤ) :
    Except String ℚ :=
  if ¬ (t ≤ n0 + n1) then Except.error ("t larger than population size")
  else if ¬ (0 ≤ n0) then Except.error ("n0 < 0")
  else if ¬ (0 ≤ n1) then Except.error ("n1 < 0")
  else Except.ok (
    if k ≥ n0 ∨ k ≥ t then 1
    else if k < 0 then 0
    else
      let g := fun i => hypergeometric_gamma ev i n0 n1 t
      let mode : ℤ := (t * n0) / (n0 + n1)
      if k < mode then
        tailLoopDown g (-1) (k + 1).toNat k 1 0
      else
        let p1 := tailLoopUp g k (k - mode + 1).toNat mode 1 0
        tailLoopDown g (-1) mode.toNat (mode - 1) 1 p1)

/-- `hypergeometric_Q(k, n0, n1, t)` (GO.py lines 232-270): upper tail
`P(X ≥ k + 1)` (the callers pass `k - 1` to make it inclusive). -/
def hypergeometric_Q (ev : ℤ → ℤ → ℤ → ℤ → ℚ) (k n0 n1 t : ℤ) :
    Except String ℚ :=
  if ¬ (t ≤ n0 + n1) then Except.error ("t larger than population size")
  else if ¬ (0 ≤ n0) then Except.error ("n0 < 0")
  else if ¬ (0 ≤ n1) then Except.error ("n1 < 0")
  else Except.ok (
    if k ≥ n0 ∨ k ≥ t then 1
    else if k < 0 then 0
    else
      let g := fun i => hypergeometric_gamma ev i n0 n1 t
      let mode : ℤ := (t * n0) / (n0 + n1)
      if k < mode then
        let p1 := tailLoopUp g t (t - mode + 1).toNat mode 1 0
        tailLoopDown g k (mode - 1 - k).toNat (mode - 1) 1 p1
      else
        tailLoopUp g t (t - k).toNat (k + 1) 1 0)

/-- The value stored in `GOResult.mRatio` (GO.py lines 422-425): either
the Python string `"na"` or a float. -/
inductive RatioValue
  | na
  | val (q : ℚ)
deriving DecidableEq

/-- `GOResult` (GO.py lines 374-425): per-category counts and the
probabilities filled in by `UpdateProbabilities`.  The Python class
attributes initialise the probabilities to `0`; `mRatio` is unset until
`UpdateProbabilities` assigns it (initialised to `val 0` here). -/
structure GOResult where
  mGOId : String
  mSampleCountsCategory : ℤ
  mBackgroundCountsCategory : ℤ
  mSampleCountsTotal : ℤ
  mBackgroundCountsTotal : ℤ
  mProbabilityOverRepresentation : ℚ
  mProbabilityUnderRepresentation : ℚ
  mRatio : RatioValue
deriving DecidableEq

/-- Message of the first sanity check of `UpdateProbabilities`
(GO.py lines 396-398). -/
def assertForegroundMsg (goid : String) (sampleCat bgCat : ℤ) : String :=
  goid ++ ": more counts in foreground (" ++ toString sampleCat ++
    ") than in the background (" ++ toString bgCat ++
    ") - make sure the foreground is part of the background."

/-- Message of the second sanity check of `UpdateProbabilities`
(GO.py lines 400-402). -/
def assertBackgroundTotalMsg (goid : String) (bgCat bgTotal : ℤ) : String :=
  goid ++ ": background: more counts in category (" ++ toString bgCat ++
    ") than in total (" ++ toString bgTotal ++ ")."

/-- Message of the third sanity check of `UpdateProbabilities`
(GO.py lines 404-406); the source misspells "forerground". -/
def assertSampleTotalMsg (goid : String) (sampleCat sampleTotal : ℤ) : String :=
  goid ++ ": forerground: more counts in category (" ++ toString sampleCat ++
    ") than in total (" ++ toString sampleTotal ++ ")."

/-- `GOResult.UpdateProbabilities` (GO.py lines 388-425).  Early return
when the background total is `0`; three sanity-check assertions; the
over-representation shortcut for a zero sample count; `hypergeometric_Q`
at `k - 1` otherwise; `hypergeometric_P` at `k` in every surviving case;
and the ratio, `"na"` when either denominator is zero. -/
def UpdateProbabilities (ev : ℤ → ℤ → ℤ → ℤ → ℚ) (r : GOResult) :
    Except String GOResult :=
  if r.mBackgroundCountsTotal = 0 then Except.ok r
  else if ¬ (r.mSampleCountsCategory ≤ r.mBackgroundCountsCategory) then
    Except.error (assertForegroundMsg r.mGOId r.mSampleCountsCategory
      r.mBackgroundCountsCategory)
  else if ¬ (r.mBackgroundCountsCategory ≤ r.mBackgroundCountsTotal) then
    Except.error (assertBackgroundTotalMsg r.mGOId r.mBackgroundCountsCategory
      r.mBackgroundCountsTotal)
  else if ¬ (r.mSampleCountsCategory ≤ r.mSampleCountsTotal) then
    Except.error (assertSampleTotalMsg r.mGOId r.mSampleCountsCategory
      r.mSampleCountsTotal)
  else
    match (if r.mSampleCountsCategory = 0 then Except.ok (1 : ℚ)
           else hypergeometric_Q ev (r.mSampleCountsCategory - 1)
             r.mBackgroundCountsCategory
             (r.mBackgroundCountsTotal - r.mBackgroundCountsCategory)
             r.mSampleCountsTotal) with
    | Except.error e => Except.error e
    | Except.ok pover =>
      match hypergeometric_P ev r.mSampleCountsCategory
              r.mBackgroundCountsCategory
              (r.mBackgroundCountsTotal - r.mBackgroundCountsCategory)
              r.mSampleCountsTotal with
      | Except.error e => Except.error e
      | Except.ok punder =>
        Except.ok { r with
          mProbabilityOverRepresentation := pover
          mProbabilityUnderRepresentation := punder
          mRatio :=
            if r.mSampleCountsTotal = 0 ∨ r.mBackgroundCountsCategory = 0 then
              RatioValue.na
            else
              RatioValue.val
                (((r.mSampleCountsCategory : ℚ) *
                    (r.mBackgroundCountsTotal : ℚ)) /
                  (r.mSampleCountsTotal : ℚ) /
                  (r.mBackgroundCountsCategory : ℚ)) }

/-- Python 2 evaluation of `v.mRatio > 1.0` (GO.py line 946): when
`mRatio` holds the string `"na"`, CPython 2 orders values of different
types by type name, and `'str' > 'float'`, so the comparison is `True`. -/
def ratioGt (r : RatioValue) (x : ℚ) : Bool :=
  match r with
  | RatioValue.na => true
  | RatioValue.val q => decide (q > x)

/-- Python 2 evaluation of `v.mRatio < 1.0` (GO.py line 948): `False`
for the string `"na"` by the same cross-type ordering. -/
def ratioLt (r : RatioValue) (x : ℚ) : Bool :=
  match r with
  | RatioValue.na => false
  | RatioValue.val q => decide (q < x)

/-- `GetCode(v)` (GO.py lines 943-952). -/
def GetCode (v : GOResult) : String :=
  if ratioGt v.mRatio 1 then "+"
  else if ratioLt v.mRatio 1 then "-"
  else "?"

/-- The gene-to-category map: gene id to the `mGOId`s of its `GOMatch`
records (the only field of the assignment records that the counting code
reads). -/
abbrev Gene2GO := List (String × List String)

/-- Association-list lookup (models Python dict lookup / `in`). -/
def lookupA {α : Type} (m : List (String × α)) (key : String) : Option α :=
  (m.find? (fun p => p.1 == key)).map Prod.snd

/-- Increment a counter dict entry, creating it at the back on first
use (models `counts[go] = 0` followed by `counts[go] += 1`). -/
def incCount (counts : List (String × ℕ)) (key : String) :
    List (String × ℕ) :=
  match counts with
  | [] => [(key, 1)]
  | (k0, v) :: rest =>
    if k0 == key then (k0, v + 1) :: rest else (k0, v) :: incCount rest key

/-- Record a gene in the `found_genes` dict (models
`found_genes[gene_id] = 1`: idempotent, first-insertion order). -/
def addFound (found : List String) (gene : String) : List String :=
  if found.contains gene then found else found ++ [gene]

/-- Result triple of `GetGOFrequencies` (GO.py lines 585-607). -/
structure GOFreq where
  total : ℕ
  counts : List (String × ℕ)
  foundGenes : List String
deriving DecidableEq

/-- `GetGOFrequencies(gene2go, genes)` (GO.py lines 585-607): per-category
occurrence counts, the total occurrence count, and the genes of the
input list that carried at least one assignment.  Genes absent from the
map are skipped. -/
def GetGOFrequencies (gene2go : Gene2GO) (genes : List String) : GOFreq :=
  genes.foldl
    (fun acc gene =>
      match lookupA gene2go gene with
      | none => acc
      | some gos =>
        let acc2 : GOFreq := { acc with foundGenes := addFound acc.foundGenes gene }
        gos.foldl
          (fun a goid => { a with total := a.total + 1, counts := incCount a.counts goid })
          acc2)
    { total := 0, counts := [], foundGenes := [] }

/-- `GOResults` (GO.py lines 441-455 plus the extra attributes assigned
in `AnalyseGO`). -/
structure GOResults where
  mResults : List (String × GOResult)
  mNumGenes : ℕ
  mBackgroundCountsTotal : ℕ
  mSampleCountsTotal : ℕ
  mBackgroundGenes : List String
  mSampleGenes : List String
deriving DecidableEq

/-- The per-category loop of `AnalyseGO` (GO.py lines 650-684): for every
category of the background tally, build a `GOResult` from the two
frequency tallies and run `UpdateProbabilities`; an `AssertionError`
aborts the whole analysis (the source prints diagnostics and calls
`sys.exit(0)`). -/
def buildResults (ev : ℤ → ℤ → ℤ → ℤ → ℚ) (sampleCounts : List (String × ℕ))
    (nSampleGenes nBackgroundGenes : ℕ) :
    List (String × ℕ) → Except String (List (String × GOResult))
  | [] => Except.ok []
  | (go_id, bcount) :: rest =>
    let r : GOResult := {
      mGOId := go_id
      mSampleCountsCategory := (((lookupA sampleCounts go_id).getD 0 : ℕ) : ℤ)
      mBackgroundCountsCategory := (bcount : ℤ)
      mSampleCountsTotal := (nSampleGenes : ℤ)
      mBackgroundCountsTotal := (nBackgroundGenes : ℤ)
      mProbabilityOverRepresentation := 0
      mProbabilityUnderRepresentation := 0
      mRatio := RatioValue.val 0 }
    match UpdateProbabilities ev r with
    | Except.error e => Except.error e
    | Except.ok r2 =>
      match buildResults ev sampleCounts nSampleGenes nBackgroundGenes rest with
      | Except.error e => Except.error e
      | Except.ok others => Except.ok ((go_id, r2) :: others)

/-- `AnalyseGO(gene2go, genes, genes_background)` (GO.py lines 610-686)
with `do_probabilities = True` (the only mode the program uses).  An
empty background argument defaults to the keys of the map, as in the
source. -/
def AnalyseGO (ev : ℤ → ℤ → ℤ → ℤ → ℚ) (gene2go : Gene2GO)
    (genes genes_background : List String) : Except String GOResults :=
  let bg_list := if genes_background.isEmpty then gene2go.map Prod.fst
                 else genes_background
  let bgF := GetGOFrequencies gene2go bg_list
  let sF := GetGOFrequencies gene2go genes
  match buildResults ev sF.counts sF.foundGenes.length bgF.foundGenes.length
      bgF.counts with
  | Except.error e => Except.error e
  | Except.ok results =>
    Except.ok { mResults := results
                mNumGenes := genes.length
                mBackgroundCountsTotal := bgF.total
                mSampleCountsTotal := sF.total
                mBackgroundGenes := bgF.foundGenes
                mSampleGenes := sF.foundGenes }

/-- Whether analysing one ontology terminates the process: an
`AssertionError` inside `AnalyseGO` runs `sys.exit(0)` (GO.py line 682),
and so does the zero-annotated-sample-genes check
(`if len(go_results.mSampleGenes) == 0`, GO.py lines 1464-1467). -/
def abortsB (x : Except String GOResults) : Bool :=
  match x with
  | Except.error _ => true
  | Except.ok res => res.mSampleGenes.length == 0

/-- The per-ontology loop of `__main__` (GO.py lines 1341, 1462-1467),
reduced to its analysis and abort control flow: ontologies are analysed
in order, and both fatal conditions call `sys.exit(0)`, which ends the
process — nothing after them runs and no result is emitted for the
aborting ontology. -/
def runOntologies (ev : ℤ → ℤ → ℤ → ℤ → ℚ) :
    List (String × Gene2GO) → List String → List String →
    List (String × GOResults)
  | [], _, _ => []
  | (ont, g2g) :: rest, genes, background =>
    match AnalyseGO ev g2g genes background with
    | Except.error _ => []
    | Except.ok res =>
      if res.mSampleGenes.length = 0 then []
      else (ont, res) :: runOntologies ev rest genes background

/-- Ascending insertion used by `sortQ`. -/
def insertSorted (x : ℚ) : List ℚ → List ℚ
  | [] => [x]
  | y :: ys => if x ≤ y then x :: y :: ys else y :: insertSorted x ys

/-- Ascending sort, modelling Python's `list.sort()` on floats. -/
def sortQ (l : List ℚ) : List ℚ := l.foldr insertSorted []

/-- The accumulators of `getSamples` (GO.py lines 1085-1118): per-category
count lists, per-category over/under p-value lists, and the pooled list
of minimum p-values across all categories and repetitions. -/
structure SampleAcc where
  counts : List (String × List ℤ)
  probOvers : List (String × List ℚ)
  probUnders : List (String × List ℚ)
  simulationMinPvalues : List ℚ
deriving DecidableEq

/-- Append to a dict-of-lists entry, creating the entry on first use
(models the `if k not in counts: ...` initialisation followed by
`append`). -/
def appendA {α : Type} (m : List (String × List α)) (key : String) (x : α) :
    List (String × List α) :=
  match m with
  | [] => [(key, [x])]
  | (k0, l) :: rest =>
    if k0 == key then (k0, l ++ [x]) :: rest else (k0, l) :: appendA rest key x

/-- Accumulation for one `(k, v)` result pair inside the sampling loop
(GO.py lines 1107-1118). -/
def sampleStep (acc : SampleAcc) (p : String × GOResult) : SampleAcc :=
  { counts := appendA acc.counts p.1 p.2.mSampleCountsCategory
    probOvers := appendA acc.probOvers p.1 p.2.mProbabilityOverRepresentation
    probUnders := appendA acc.probUnders p.1 p.2.mProbabilityUnderRepresentation
    simulationMinPvalues := acc.simulationMinPvalues ++
      [min p.2.mProbabilityUnderRepresentation
        p.2.mProbabilityOverRepresentation] }

/-- The repetition loop of `getSamples` (GO.py lines 1094-1118): draw a
random subset of the background of the foreground's size, analyse it
against the background, and accumulate.  The seeded random source is
embedded as the explicit generator `sampler` threading its state `σ`
(modelling `random.sample` on the seeded global `random` state). -/
def getSamplesAux {σ : Type} (ev : ℤ → ℤ → ℤ → ℤ → ℚ)
    (sampler : σ → List String → ℕ → List String × σ) (gene2go : Gene2GO)
    (genes background : List String) :
    ℕ → σ → SampleAcc → Except String SampleAcc
  | 0, _, acc => Except.ok acc
  | n + 1, st, acc =>
    let drawn := sampler st background genes.length
    match AnalyseGO ev gene2go drawn.1 background with
    | Except.error e => Except.error e
    | Except.ok res =>
      getSamplesAux ev sampler gene2go genes background n drawn.2
        (res.mResults.foldl sampleStep acc)

/-- `getSamples(gene2go, genes, background, options)` (GO.py lines
1078-1181), restricted to its computation: the accumulated per-category
count lists, the per-category p-value lists (sorted, GO.py lines
1148-1149), and the sorted pooled minimum-p-value list (GO.py line
1127).  File output and the derived per-category summary statistics
(min/max/mean/stddev of exactly these lists) are omitted. -/
def getSamples {σ : Type} (ev : ℤ → ℤ → ℤ → ℤ → ℚ)
    (sampler : σ → List String → ℕ → List String × σ) (s0 : σ)
    (gene2go : Gene2GO) (genes background : List String)
    (sample_size : ℕ) : Except String SampleAcc :=
  match getSamplesAux ev sampler gene2go genes background sample_size s0
      { counts := [], probOvers := [], probUnders := [],
        simulationMinPvalues := [] } with
  | Except.error e => Except.error e
  | Except.ok acc =>
    Except.ok { counts := acc.counts
                probOvers := acc.probOvers.map (fun p => (p.1, sortQ p.2))
                probUnders := acc.probUnders.map (fun p => (p.1, sortQ p.2))
                simulationMinPvalues := sortQ acc.simulationMinPvalues }

/-- The scan `while a < len(l) and l[a] < pvalue: a += 1` of the
sampling-based FDR estimator (GO.py lines 1531-1534 and 1536-1539):
the length of the longest prefix of elements below `pvalue`. -/
def countWhileLt (l : List ℚ) (pvalue : ℚ) : ℕ :=
  match l with
  | [] => 0
  | x :: rest => if x < pvalue then countWhileLt rest pvalue + 1 else 0

/-- The per-category FDR computation of the sampling branch of
`__main__` (GO.py lines 1529-1546): `a` is the prefix count of the
pooled simulated minimum p-values below `pvalue`, divided by the number
of repetitions; `b` is the prefix count of the observed minimum p-values
below `pvalue`; the FDR is `min(1, a / b)`, or `1` when `b = 0`. -/
def fdrForPvalue (simulation_min_pvalues observed_min_pvalues : List ℚ)
    (sample_size : ℕ) (pvalue : ℚ) : ℚ :=
  let a : ℚ := (countWhileLt simulation_min_pvalues pvalue : ℚ) /
    (sample_size : ℚ)
  let b : ℕ := countWhileLt observed_min_pvalues pvalue
  if 0 < b then min 1 (a / (b : ℚ)) else 1

/-- A Python sequence that is either a tuple or a list: the background
of `__main__` is `tuple(gene2go.keys())` when no background file is
supplied (GO.py line 1373) and a list otherwise. -/
inductive PySeq
  | tup (elems : List String)
  | lst (elems : List String)
deriving DecidableEq

/-- The elements of a `PySeq`. -/
def PySeq.elems : PySeq → List String
  | PySeq.tup l => l
  | PySeq.lst l => l

/-- Outcome of the background reconciliation (GO.py lines 1372-1386). -/
inductive ReconcileOutcome
  | ok (background : List String)
  | assertionFailure (missing : List String)
  | attributeFailure
deriving DecidableEq

/-- The background reconciliation of `__main__` (GO.py lines 1372-1386).
With no supplied background, the background is the tuple of the map's
keys.  `missing` is the set difference foreground minus background.  In
strict mode a non-empty `missing` is a fatal assertion naming the
missing genes.  Otherwise the source unconditionally runs
`background.extend(missing)` (after a warning when `missing` is
non-empty); on a tuple this raises `AttributeError`, because tuples have
no `extend` method. -/
def reconcileBackground (strict : Bool) (genes : List String)
    (input_background : Option (List String)) (gene2goKeys : List String) :
    ReconcileOutcome :=
  let background : PySeq :=
    match input_background with
    | none => PySeq.tup gene2goKeys
    | some l => PySeq.lst l
  let missing := (genes.filter (fun g => ¬ background.elems.contains g)).dedup
  if strict then
    if missing.length = 0 then ReconcileOutcome.ok background.elems
    else ReconcileOutcome.assertionFailure missing
  else
    match background with
    | PySeq.tup _ => ReconcileOutcome.attributeFailure
    | PySeq.lst l => ReconcileOutcome.ok (l ++ missing)

/-- A concrete evaluation oracle for witnesses: every point mass
evaluates the abstracted `math.exp` term to `1`. -/
def evOne : ℤ → ℤ → ℤ → ℤ → ℚ := fun _ _ _ _ => 1

/-- A concrete evaluation oracle that reports the `t` argument it was
called with; it makes the silent clamp of `hypergeometric_gamma`
observable in the function's return value. -/
def evT : ℤ → ℤ → ℤ → ℤ → ℚ := fun _ _ _ t => (t : ℚ)

/-- Concrete enrichment record for witnesses: 1 of 3 sampled genes and
2 of 10 background genes in the category. -/
def goR0 : GOResult :=
  { mGOId := "GO:1"
    mSampleCountsCategory := 1
    mBackgroundCountsCategory := 2
    mSampleCountsTotal := 3
    mBackgroundCountsTotal := 10
    mProbabilityOverRepresentation := 0
    mProbabilityUnderRepresentation := 0
    mRatio := RatioValue.val 0 }

/-- The record `goR0` after `UpdateProbabilities` with the oracle
`evOne`: under that oracle both tails saturate at `1`, and the ratio is
`(1 * 10) / 3 / 2 = 5 / 3`. -/
def goR0res : GOResult :=
  { goR0 with
    mProbabilityOverRepresentation := 1
    mProbabilityUnderRepresentation := 1
    mRatio := RatioValue.val (5 / 3) }

/-- Concrete record violating the foreground-subset invariant: 5 counts
in the foreground category but only 2 in the background category. -/
def goRbad : GOResult :=
  { mGOId := "GO:2"
    mSampleCountsCategory := 5
    mBackgroundCountsCategory := 2
    mSampleCountsTotal := 5
    mBackgroundCountsTotal := 10
    mProbabilityOverRepresentation := 0
    mProbabilityUnderRepresentation := 0
    mRatio := RatioValue.val 0 }

/-- Concrete record whose ratio is the Python string `"na"`. -/
def goRna : GOResult :=
  { mGOId := "GO:3"
    mSampleCountsCategory := 0
    mBackgroundCountsCategory := 1
    mSampleCountsTotal := 0
    mBackgroundCountsTotal := 4
    mProbabilityOverRepresentation := 1
    mProbabilityUnderRepresentation := 1
    mRatio := RatioValue.na }

/-- Ontology "A" assignment map: only the gene `x` is annotated. -/
def gene2goA : Gene2GO := [("x", ["GO:A"])]

/-- Ontology "B" assignment map: only the gene `g1` is annotated. -/
def gene2goB : Gene2GO := [("g1", ["GO:B"])]

/-- A deterministic generator for witnesses: ignores its state and takes
the first `n` background genes. -/
def samplerTake : ℕ → List String → ℕ → List String × ℕ :=
  fun s bg n => (bg.take n, s + 1)

/-- Decidable equality for `Except` results, so that concrete runs of
the embedded functions can be checked by `decide`. -/
instance exceptDecEq {ε α : Type} [DecidableEq ε] [DecidableEq α] :
    DecidableEq (Except ε α) := fun x y =>
  match x, y with
  | Except.error a, Except.error b =>
    if h : a = b then Decidable.isTrue (by rw [h])
    else Decidable.isFalse (fun hc => h (Except.error.inj hc))
  | Except.ok a, Except.ok b =>
    if h : a = b then Decidable.isTrue (by rw [h])
    else Decidable.isFalse (fun hc => h (Except.ok.inj hc))
  | Except.error _, Except.ok _ =>
    Decidable.isFalse (fun hc => Except.noConfusion hc)
  | Except.ok _, Except.error _ =>
    Decidable.isFalse (fun hc => Except.noConfusion hc)

/-- Claim C3, counterexample.  At `t = 99 > 2 + 3 = n0 + n1`,
`hypergeometric_gamma` does not fail: it silently clamps `t` to
`n0 + n1` and returns an ordinary value.  With the oracle `evT` (which
reports the `t` it is evaluated at) the returned value is `5`, i.e. the
clamped `t`, making the silent clamp observable.  The claim asserts that
every function of the engine, `hypergeometric_gamma` included, signals
an invalid-argument failure here and does not silently clamp. -/
theorem goC3_counterexample :
    (99 : ℤ) > 2 + 3 ∧
    hypergeometric_gamma evT 2 2 3 99 = hypergeometric_gamma evT 2 2 3 5 ∧
    hypergeometric_gamma evT 2 2 3 99 = 5 :=
  ⟨by decide, by with_unfolding_all rfl, by with_unfolding_all rfl⟩

/-- Claim C3, amended: `hypergeometric_P` and `hypergeometric_Q` signal
an invalid-argument failure on every input with `t > n0 + n1`, `n0 < 0`
or `n1 < 0`; `hypergeometric_gamma`, however, performs no validation and
silently clamps `t` down to `n0 + n1`. -/
theorem goC3_amended :
    (∀ (ev : ℤ → ℤ → ℤ → ℤ → ℚ) (k n0 n1 t : ℤ),
        (¬ (t ≤ n0 + n1) ∨ n0 < 0 ∨ n1 < 0) →
        (∃ e, hypergeometric_P ev k n0 n1 t = Except.error e) ∧
        (∃ e, hypergeometric_Q ev k n0 n1 t = Except.error e)) ∧
    (∀ (ev : ℤ → ℤ → ℤ → ℤ → ℚ) (k n1 n2 t : ℤ), n1 + n2 < t →
        hypergeometric_gamma ev k n1 n2 t =
          hypergeometric_gamma ev k n1 n2 (n1 + n2)) := by
  constructor
  · intro ev k n0 n1 t h
    constructor
    · unfold hypergeometric_P
      by_cases h1 : t ≤ n0 + n1
      · rw [if_neg (not_not_intro h1)]
        by_cases h2 : (0 : ℤ) ≤ n0
        · rw [if_neg (not_not_intro h2), if_pos (by omega : ¬ ((0 : ℤ) ≤ n1))]
          exact ⟨_, rfl⟩
        · rw [if_pos h2]; exact ⟨_, rfl⟩
      · rw [if_pos h1]; exact ⟨_, rfl⟩
    · unfold hypergeometric_Q
      by_cases h1 : t ≤ n0 + n1
      · rw [if_neg (not_not_intro h1)]
        by_cases h2 : (0 : ℤ) ≤ n0
        · rw [if_neg (not_not_intro h2), if_pos (by omega : ¬ ((0 : ℤ) ≤ n1))]
          exact ⟨_, rfl⟩
        · rw [if_pos h2]; exact ⟨_, rfl⟩
      · rw [if_pos h1]; exact ⟨_, rfl⟩
  · intro ev k n1 n2 t h
    have hc : clampT n1 n2 t = clampT n1 n2 (n1 + n2) := by
      unfold clampT
      rw [if_pos (by omega : t > n1 + n2), if_neg (by omega : ¬ (n1 + n2 > n1 + n2))]
    unfold hypergeometric_gamma
    rw [hc]

/-- Claim C3, witness for the amended theorem: at `n0 = -1` both tail
functions fail, and at `t = 99 > 2 + 3` the point mass equals its value
at the clamped `t = 5`. -/
theorem goC3_witness :
    (∃ e, hypergeometric_P evOne 0 (-1) 0 0 = Except.error e) ∧
    hypergeometric_gamma evT 2 2 3 99 = hypergeometric_gamma evT 2 2 3 (2 + 3) :=
  ⟨(goC3_amended.1 evOne 0 (-1) 0 0 (Or.inr (Or.inl (by decide)))).1,
   goC3_amended.2 evT 2 2 3 99 (by decide)⟩

/-- Claim C5, counterexample.  At `k = -1`, `n0 = 3`, `n1 = 4`,
`t = -5`, the stated preconditions hold and `k < 0`, so the claim
requires both tail probabilities to be exactly `0.0`; but the source
tests `k >= n0 or k >= t` first, and `-1 ≥ -5`, so both functions return
exactly `1.0`. -/
theorem goC5_counterexample :
    ((-5 : ℤ) ≤ 3 + 4 ∧ (0 : ℤ) ≤ 3 ∧ (0 : ℤ) ≤ 4 ∧ (-1 : ℤ) < 0) ∧
    hypergeometric_P evOne (-1) 3 4 (-5) = Except.ok 1 ∧
    hypergeometric_Q evOne (-1) 3 4 (-5) = Except.ok 1 ∧
    ¬ hypergeometric_P evOne (-1) 3 4 (-5) = Except.ok 0 :=
  ⟨by decide, by decide, by decide, by decide⟩

/-- Claim C5, amended: under the preconditions, if `k ≥ n0` or `k ≥ t`
the tail probability is exactly `1.0`; if `k < 0` **and neither of the
former holds** (which the source tests first), it is exactly `0.0`. -/
theorem goC5_amended (ev : ℤ → ℤ → ℤ → ℤ → ℚ) (k n0 n1 t : ℤ)
    (hpre : t ≤ n0 + n1) (hn0 : (0 : ℤ) ≤ n0) (hn1 : (0 : ℤ) ≤ n1) :
    ((k ≥ n0 ∨ k ≥ t) →
      hypergeometric_P ev k n0 n1 t = Except.ok 1 ∧
      hypergeometric_Q ev k n0 n1 t = Except.ok 1) ∧
    (k < 0 → k < n0 → k < t →
      hypergeometric_P ev k n0 n1 t = Except.ok 0 ∧
      hypergeometric_Q ev k n0 n1 t = Except.ok 0) := by
  unfold hypergeometric_P hypergeometric_Q
  rw [if_neg (not_not_intro hpre), if_neg (not_not_intro hn0),
    if_neg (not_not_intro hn1)]
  rw [if_neg (not_not_intro hpre), if_neg (not_not_intro hn0),
    if_neg (not_not_intro hn1)]
  constructor
  · intro hk
    rw [if_pos hk]; rw [if_pos hk]
    exact ⟨rfl, rfl⟩
  · intro h1 h2 h3
    have hk : ¬ (k ≥ n0 ∨ k ≥ t) := by omega
    rw [if_neg hk, if_pos h1]; rw [if_neg hk, if_pos h1]
    exact ⟨rfl, rfl⟩

/-- Claim C5, witness for the amended theorem: at `k = -1`, `n0 = 1`,
`n1 = 1`, `t = 1` (preconditions hold, `k` below everything) both tails
are exactly `0.0`. -/
theorem goC5_witness :
    hypergeometric_P evOne (-1) 1 1 1 = Except.ok 0 ∧
    hypergeometric_Q evOne (-1) 1 1 1 = Except.ok 0 :=
  (goC5_amended evOne (-1) 1 1 1 (by decide) (by decide) (by decide)).2
    (by decide) (by decide) (by decide)

/-- Claim C6, counterexample.  The claim says `hypergeometric_gamma`
returns a strictly positive value for every input; but for `k` outside
the support (here `k = 2 > n1 = 1`) the source returns the literal
integer `0` before ever reaching the `max(..., MIN_FLOAT)` clamp. -/
theorem goC6_counterexample :
    hypergeometric_gamma evOne 2 1 1 1 = 0 ∧
    ¬ (0 < hypergeometric_gamma evOne 2 1 1 1) :=
  ⟨by decide, by decide⟩

/-- Claim C6, amended: the `MIN_FLOAT` clamp applies only on the
in-support branch, where the result is at least `MIN_FLOAT` and hence
strictly positive for every oracle value; on the two out-of-support
branches the function returns exactly `0`. -/
theorem goC6_amended (ev : ℤ → ℤ → ℤ → ℤ → ℚ) (k n1 n2 t : ℤ) :
    ((k > n1 ∨ k > clampT n1 n2 t) → hypergeometric_gamma ev k n1 n2 t = 0) ∧
    (¬ (k > n1 ∨ k > clampT n1 n2 t) →
      (clampT n1 n2 t > n2 ∧ k + n2 < clampT n1 n2 t) →
      hypergeometric_gamma ev k n1 n2 t = 0) ∧
    (¬ (k > n1 ∨ k > clampT n1 n2 t) →
      ¬ (clampT n1 n2 t > n2 ∧ k + n2 < clampT n1 n2 t) →
      MIN_FLOAT ≤ hypergeometric_gamma ev k n1 n2 t ∧
      0 < hypergeometric_gamma ev k n1 n2 t) := by
  unfold hypergeometric_gamma
  refine ⟨fun h => by rw [if_pos h], fun h1 h2 => by rw [if_neg h1, if_pos h2],
    fun h1 h2 => ?_⟩
  rw [if_neg h1, if_neg h2]
  have hmin : (0 : ℚ) < MIN_FLOAT := by unfold MIN_FLOAT; positivity
  have hle : MIN_FLOAT ≤ pymax (ev k n1 n2 (clampT n1 n2 t)) MIN_FLOAT := by
    unfold pymax
    split
    · assumption
    · exact le_refl _
  exact ⟨hle, lt_of_lt_of_le hmin hle⟩

/-- Claim C6, witness for the amended theorem: at `k = 0`, `n1 = 1`,
`n2 = 1`, `t = 1` the in-support branch is taken and the result is at
least `MIN_FLOAT` and strictly positive. -/
theorem goC6_witness :
    MIN_FLOAT ≤ hypergeometric_gamma evOne 0 1 1 1 ∧
    0 < hypergeometric_gamma evOne 0 1 1 1 :=
  (goC6_amended evOne 0 1 1 1).2.2 (by decide) (by decide)

/-- Shape of every successful run of `UpdateProbabilities` past the
early return: the over-probability comes from the zero-count shortcut or
from `hypergeometric_Q` at `k - 1`, the under-probability from
`hypergeometric_P` at `k`, and the result record updates exactly the two
probabilities and the ratio. -/
theorem updateProbabilities_ok_spec (ev : ℤ → ℤ → ℤ → ℤ → ℚ)
    (r r2 : GOResult) (hbg : r.mBackgroundCountsTotal ≠ 0)
    (hok : UpdateProbabilities ev r = Except.ok r2) :
    ∃ pover punder,
      (if r.mSampleCountsCategory = 0 then Except.ok (1 : ℚ)
       else hypergeometric_Q ev (r.mSampleCountsCategory - 1)
         r.mBackgroundCountsCategory
         (r.mBackgroundCountsTotal - r.mBackgroundCountsCategory)
         r.mSampleCountsTotal) = Except.ok pover ∧
      hypergeometric_P ev r.mSampleCountsCategory r.mBackgroundCountsCategory
        (r.mBackgroundCountsTotal - r.mBackgroundCountsCategory)
        r.mSampleCountsTotal = Except.ok punder ∧
      r2 = { r with
        mProbabilityOverRepresentation := pover
        mProbabilityUnderRepresentation := punder
        mRatio :=
          if r.mSampleCountsTotal = 0 ∨ r.mBackgroundCountsCategory = 0 then
            RatioValue.na
          else
            RatioValue.val
              (((r.mSampleCountsCategory : ℚ) *
                  (r.mBackgroundCountsTotal : ℚ)) /
                (r.mSampleCountsTotal : ℚ) /
                (r.mBackgroundCountsCategory : ℚ)) } := by
  unfold UpdateProbabilities at hok
  rw [if_neg hbg] at hok
  split at hok
  · exact Except.noConfusion hok
  split at hok
  · exact Except.noConfusion hok
  split at hok
  · exact Except.noConfusion hok
  split at hok
  · exact Except.noConfusion hok
  next pover hQ =>
    split at hok
    · exact Except.noConfusion hok
    next punder hP =>
      rw [Except.ok.injEq] at hok
      exact ⟨pover, punder, hQ, hP, hok.symm⟩

/-- Claim C1: for a category of the background tally (positive
background total), a successful `UpdateProbabilities` sets the
over-representation probability to exactly `1.0` when the sample
count-in-category is `0` — independently of the tail-probability oracle,
which is not consulted — and to the value of
`hypergeometric_Q(k - 1, n0, n1, t)` otherwise, and always sets the
under-representation probability to the value of
`hypergeometric_P(k, n0, n1, t)`, with `n0` the background
count-in-category, `n1` the background total minus `n0`, and `t` the
sample total. -/
theorem goC1 (ev : ℤ → ℤ → ℤ → ℤ → ℚ) (r r2 : GOResult)
    (hbg : r.mBackgroundCountsTotal ≠ 0)
    (hok : UpdateProbabilities ev r = Except.ok r2) :
    (r.mSampleCountsCategory = 0 → r2.mProbabilityOverRepresentation = 1) ∧
    (r.mSampleCountsCategory ≠ 0 →
      hypergeometric_Q ev (r.mSampleCountsCategory - 1)
        r.mBackgroundCountsCategory
        (r.mBackgroundCountsTotal - r.mBackgroundCountsCategory)
        r.mSampleCountsTotal = Except.ok r2.mProbabilityOverRepresentation) ∧
    hypergeometric_P ev r.mSampleCountsCategory r.mBackgroundCountsCategory
      (r.mBackgroundCountsTotal - r.mBackgroundCountsCategory)
      r.mSampleCountsTotal = Except.ok r2.mProbabilityUnderRepresentation := by
  obtain ⟨pover, punder, hQ, hP, hr2⟩ :=
    updateProbabilities_ok_spec ev r r2 hbg hok
  refine ⟨fun hk0 => ?_, fun hk => ?_, ?_⟩
  · rw [if_pos hk0] at hQ
    rw [hr2]
    exact (Except.ok.inj hQ).symm
  · rw [if_neg hk] at hQ
    rw [hr2]
    exact hQ
  · rw [hr2]
    exact hP

/-- Claim C1, witness: for `goR0` (1 of 3 sampled genes, 2 of 10
background genes in the category) the two probabilities of the updated
record are exactly the values of the two tail functions. -/
theorem goC1_witness :
    hypergeometric_P evOne goR0.mSampleCountsCategory
      goR0.mBackgroundCountsCategory
      (goR0.mBackgroundCountsTotal - goR0.mBackgroundCountsCategory)
      goR0.mSampleCountsTotal =
        Except.ok goR0res.mProbabilityUnderRepresentation ∧
    hypergeometric_Q evOne (goR0.mSampleCountsCategory - 1)
      goR0.mBackgroundCountsCategory
      (goR0.mBackgroundCountsTotal - goR0.mBackgroundCountsCategory)
      goR0.mSampleCountsTotal =
        Except.ok goR0res.mProbabilityOverRepresentation :=
  have h := goC1 evOne goR0 goR0res (by decide) (by with_unfolding_all rfl)
  ⟨h.2.2, h.2.1 (by decide)⟩

/-- Claim C4: past the early return, a violation of any of the three
count invariants makes `UpdateProbabilities` fail with the
data-consistency message carrying the category id and the two counts
involved, and hence produce no probability value. -/
theorem goC4 (ev : ℤ → ℤ → ℤ → ℤ → ℚ) (r : GOResult)
    (hbg : r.mBackgroundCountsTotal ≠ 0) :
    (r.mBackgroundCountsCategory < r.mSampleCountsCategory →
      UpdateProbabilities ev r = Except.error (assertForegroundMsg r.mGOId
        r.mSampleCountsCategory r.mBackgroundCountsCategory)) ∧
    (r.mSampleCountsCategory ≤ r.mBackgroundCountsCategory →
      r.mBackgroundCountsTotal < r.mBackgroundCountsCategory →
      UpdateProbabilities ev r = Except.error (assertBackgroundTotalMsg
        r.mGOId r.mBackgroundCountsCategory r.mBackgroundCountsTotal)) ∧
    (r.mSampleCountsCategory ≤ r.mBackgroundCountsCategory →
      r.mBackgroundCountsCategory ≤ r.mBackgroundCountsTotal →
      r.mSampleCountsTotal < r.mSampleCountsCategory →
      UpdateProbabilities ev r = Except.error (assertSampleTotalMsg r.mGOId
        r.mSampleCountsCategory r.mSampleCountsTotal)) := by
  unfold UpdateProbabilities
  rw [if_neg hbg]
  refine ⟨fun h => ?_, fun h1 h2 => ?_, fun h1 h2 h3 => ?_⟩
  · rw [if_pos (not_le.mpr h)]
  · rw [if_neg (not_not_intro h1), if_pos (not_le.mpr h2)]
  · rw [if_neg (not_not_intro h1), if_neg (not_not_intro h2),
      if_pos (not_le.mpr h3)]

/-- Claim C4, witness: `goRbad` has 5 foreground counts against 2
background counts, and probability computation fails with the
data-consistency message naming "GO:2" and both counts. -/
theorem goC4_witness :
    UpdateProbabilities evOne goRbad = Except.error (assertForegroundMsg
      goRbad.mGOId goRbad.mSampleCountsCategory
      goRbad.mBackgroundCountsCategory) :=
  (goC4 evOne goRbad (by decide)).1 (by decide)

/-- Claim C10: `GetCode` yields `"+"` exactly when the ratio compares
greater than `1.0` under Python 2 ordering, `"-"` when it compares less
(and not greater), and `"?"` otherwise; a ratio stored as the string
`"na"` compares greater than `1.0`, so it is coded `"+"`; and a
successful `UpdateProbabilities` with zero sample total or zero
background count-in-category stores exactly that `"na"` ratio, which is
therefore coded `"+"`, never `"?"`. -/
theorem goC10 :
    (∀ v : GOResult,
      (GetCode v = "+" ↔ ratioGt v.mRatio 1 = true) ∧
      (GetCode v = "-" ↔
        (ratioGt v.mRatio 1 = false ∧ ratioLt v.mRatio 1 = true)) ∧
      (GetCode v = "?" ↔
        (ratioGt v.mRatio 1 = false ∧ ratioLt v.mRatio 1 = false))) ∧
    (∀ v : GOResult, v.mRatio = RatioValue.na → GetCode v = "+") ∧
    (∀ (ev : ℤ → ℤ → ℤ → ℤ → ℚ) (r r2 : GOResult),
      r.mBackgroundCountsTotal ≠ 0 →
      UpdateProbabilities ev r = Except.ok r2 →
      (r.mSampleCountsTotal = 0 ∨ r.mBackgroundCountsCategory = 0) →
      r2.mRatio = RatioValue.na ∧ GetCode r2 = "+") := by
  have hcode : ∀ v : GOResult,
      (GetCode v = "+" ↔ ratioGt v.mRatio 1 = true) ∧
      (GetCode v = "-" ↔
        (ratioGt v.mRatio 1 = false ∧ ratioLt v.mRatio 1 = true)) ∧
      (GetCode v = "?" ↔
        (ratioGt v.mRatio 1 = false ∧ ratioLt v.mRatio 1 = false)) := by
    intro v
    unfold GetCode
    cases hgt : ratioGt v.mRatio 1 <;> cases hlt : ratioLt v.mRatio 1 <;>
      simp [hgt, hlt]
  have hna : ∀ v : GOResult, v.mRatio = RatioValue.na → GetCode v = "+" := by
    intro v h
    unfold GetCode
    rw [h]
    decide
  refine ⟨hcode, hna, fun ev r r2 hbg hok hcond => ?_⟩
  obtain ⟨pover, punder, hQ, hP, hr2⟩ :=
    updateProbabilities_ok_spec ev r r2 hbg hok
  have hr2na : r2.mRatio = RatioValue.na := by
    rw [hr2]
    exact if_pos hcond
  exact ⟨hr2na, hna r2 hr2na⟩

/-- Claim C10, witness: the record `goRna` carries the `"na"` ratio and
is coded `"+"`. -/
theorem goC10_witness : GetCode goRna = "+" :=
  goC10.2.1 goRna (by decide)

/-- On a list sorted in ascending order, the prefix scan of the FDR loop
counts exactly the elements strictly below the probe value. -/
theorem countWhileLt_eq_countP (pvalue : ℚ) :
    ∀ l : List ℚ, l.Sorted (· ≤ ·) →
      countWhileLt l pvalue = l.countP (fun x => decide (x < pvalue)) := by
  intro l
  induction l with
  | nil => intro _; rfl
  | cons x rest ih =>
    intro hs
    rw [List.sorted_cons] at hs
    by_cases hx : x < pvalue
    · simp [countWhileLt, hx, List.countP_cons, ih hs.2]
    · have hall : ∀ y ∈ rest, ¬ (y < pvalue) := fun y hy hlt =>
        hx (lt_of_le_of_lt (hs.1 y hy) hlt)
      have hz : rest.countP (fun x => decide (x < pvalue)) = 0 :=
        List.countP_eq_zero.mpr (fun a ha => by
          simpa using hall a ha)
      simp [countWhileLt, hx, List.countP_cons, hz]

/-- Claim C2: in sampling mode (`N > 0`), with the pooled simulated list
and the observed list both sorted ascending (as the source sorts them),
the per-category FDR at observed minimum p-value `p` equals
`min(1, a / b)` with `a` the number of simulated entries strictly below
`p` divided by `N` and `b` the number of observed entries strictly below
`p`, and equals `1` when `b = 0`. -/
theorem goC2 (sim obs : List ℚ) (N : ℕ) (p : ℚ) (hN : 0 < N)
    (hsim : sim.Sorted (· ≤ ·)) (hobs : obs.Sorted (· ≤ ·)) :
    fdrForPvalue sim obs N p =
      if obs.countP (fun x => decide (x < p)) = 0 then 1
      else min 1 (((sim.countP (fun x => decide (x < p)) : ℚ) / (N : ℚ)) /
        (obs.countP (fun x => decide (x < p)) : ℚ)) := by
  unfold fdrForPvalue
  rw [countWhileLt_eq_countP p sim hsim, countWhileLt_eq_countP p obs hobs]
  rcases Nat.eq_zero_or_pos (obs.countP (fun x => decide (x < p))) with h | h
  · rw [if_neg (by omega), if_pos h]
  · rw [if_pos h, if_neg (by omega)]

/-- Claim C2, witness: pooled list `[0, 1]`, observed list `[0]`,
`N = 2`, probe `p = 1`: one simulated and one observed entry lie below
`p`, so the FDR is `min(1, (1/2)/1)`. -/
theorem goC2_witness :
    fdrForPvalue [0, 1] [0] 2 1 =
      if ([(0 : ℚ)] : List ℚ).countP (fun x => decide (x < 1)) = 0 then 1
      else min 1 ((((([(0 : ℚ), 1] : List ℚ).countP
          (fun x => decide (x < 1))) : ℚ) / ((2 : ℕ) : ℚ)) /
        ((([(0 : ℚ)] : List ℚ).countP (fun x => decide (x < 1))) : ℚ)) :=
  goC2 [0, 1] [0] 2 1 (by decide) (by decide) (by decide)

/-- Claim C7, evaluation at the failing input.  In default (non-strict)
mode with no supplied background, the background is the tuple of the
map's keys and the unconditional `background.extend(missing)` raises
`AttributeError` (tuples have no `extend`), so the claimed repair never
happens; with an explicitly supplied background the claimed behaviour
does hold (second conjunct), and strict mode does fail fatally naming
the missing genes (third conjunct). -/
theorem goC7_eval :
    reconcileBackground false ["g1"] none ["g2"] =
      ReconcileOutcome.attributeFailure ∧
    reconcileBackground false ["g1"] (some ["g2"]) ["x"] =
      ReconcileOutcome.ok ["g2", "g1"] ∧
    reconcileBackground true ["g1"] none ["g2"] =
      ReconcileOutcome.assertionFailure ["g1"] :=
  ⟨by decide, by decide, by decide⟩

/-- Claim C8, counterexample.  With two requested ontologies, the first
of which has zero annotated sample genes (gene `g1` carries no category
of ontology "A"), the abort is `sys.exit(0)`: ontology "B" is never
analysed, contradicting the claim that the remaining namespaces are
still analysed. -/
theorem goC8_counterexample :
    ¬ ("B" ∈ (runOntologies evOne [("A", gene2goA), ("B", gene2goB)]
      ["g1"] ["g1", "x"]).map Prod.fst) := by
  decide

/-- Claim C8, amended: a fatal condition while analysing one namespace —
an assertion failure inside `AnalyseGO` or zero sample genes with any
category assignment — terminates the whole process, so no output is
produced for that namespace and none of the remaining requested
namespaces is analysed. -/
theorem goC8_amended (ev : ℤ → ℤ → ℤ → ℤ → ℚ) (ont : String)
    (g2g : Gene2GO) (rest : List (String × Gene2GO))
    (genes background : List String)
    (h : abortsB (AnalyseGO ev g2g genes background) = true) :
    runOntologies ev ((ont, g2g) :: rest) genes background = [] := by
  unfold runOntologies
  cases hE : AnalyseGO ev g2g genes background with
  | error e => simp [hE]
  | ok res =>
    rw [hE] at h
    simp [abortsB] at h
    simp [hE, h]

/-- Claim C8, witness for the amended theorem: the concrete two-ontology
run aborts on ontology "A" and produces no results at all. -/
theorem goC8_witness :
    runOntologies evOne [("A", gene2goA), ("B", gene2goB)] ["g1"]
      ["g1", "x"] = [] :=
  goC8_amended evOne "A" gene2goA [("B", gene2goB)] ["g1"] ["g1", "x"]
    (by decide)

/-- Claim C9: the sampler is deterministic.  All randomness of
`getSamples` enters through the seeded generator, embedded as the
explicit `sampler` function and its threaded state; two runs with
identical gene-to-category map, foreground, background, repetition count
and generator state produce identical per-category count lists,
identical per-category over/under p-value distributions, and an
identical pooled minimum-p-value list. -/
theorem goC9 {σ : Type} (ev : ℤ → ℤ → ℤ → ℤ → ℚ)
    (sampler : σ → List String → ℕ → List String × σ) (s1 s2 : σ)
    (g1 g2 : Gene2GO) (fg1 fg2 bg1 bg2 : List String) (n1 n2 : ℕ)
    (hs : s1 = s2) (hg : g1 = g2) (hf : fg1 = fg2) (hb : bg1 = bg2)
    (hn : n1 = n2) :
    Except.map (fun a => a.counts) (getSamples ev sampler s1 g1 fg1 bg1 n1) =
      Except.map (fun a => a.counts)
        (getSamples ev sampler s2 g2 fg2 bg2 n2) ∧
    Except.map (fun a => a.probOvers)
        (getSamples ev sampler s1 g1 fg1 bg1 n1) =
      Except.map (fun a => a.probOvers)
        (getSamples ev sampler s2 g2 fg2 bg2 n2) ∧
    Except.map (fun a => a.probUnders)
        (getSamples ev sampler s1 g1 fg1 bg1 n1) =
      Except.map (fun a => a.probUnders)
        (getSamples ev sampler s2 g2 fg2 bg2 n2) ∧
    Except.map (fun a => a.simulationMinPvalues)
        (getSamples ev sampler s1 g1 fg1 bg1 n1) =
      Except.map (fun a => a.simulationMinPvalues)
        (getSamples ev sampler s2 g2 fg2 bg2 n2) := by
  subst hs hg hf hb hn
  exact ⟨rfl, rfl, rfl, rfl⟩

/-- Claim C9, witness: the concrete two-repetition run compared against
itself at equal inputs and equal seed state. -/
theorem goC9_witness :
    Except.map (fun a => a.simulationMinPvalues)
        (getSamples evOne samplerTake 0 gene2goB ["g1"] ["g1", "x"] 2) =
      Except.map (fun a => a.simulationMinPvalues)
        (getSamples evOne samplerTake 0 gene2goB ["g1"] ["g1", "x"] 2) :=
  (goC9 evOne samplerTake 0 0 gene2goB gene2goB ["g1"] ["g1"]
    ["g1", "x"] ["g1", "x"] 2 2 rfl rfl rfl rfl rfl).2.2.2

end CgatGO
